import Mathlib

/-
Verification of the StayLive review-ingestion pipeline
(scripts/ingest-hotel-data.ts, scripts/ingest-top-hotels.ts,
scripts/fetch-hotels.ts) against its specification.

The TypeScript source is shallowly embedded below: pure helpers become Lean
functions, the external world (TripAdvisor, Google Places, DeepSeek, the
Supabase store, Math.random) is passed in as explicit oracles, and the
sequential driver loop becomes structural recursion threading an explicit
run state plus a trace of externally visible effects.
-/

namespace StayLive

set_option maxRecDepth 16384

/-- JS `toLowerCase` over the character list (the inputs of interest are
ASCII category keys). -/
def toLowerStr (s : String) : String :=
  String.mk (s.toList.map Char.toLower)

/-- JS `trim`: drop leading and trailing whitespace. -/
def trimStr (s : String) : String :=
  String.mk (((s.toList.dropWhile Char.isWhitespace).reverse.dropWhile
    Char.isWhitespace).reverse)

/-- JS `slice(0, n)` on a string. -/
def takeStr (s : String) (n : Nat) : String :=
  String.mk (s.toList.take n)

/-- Severity of a persisted issue record: `warning` or `critical`. -/
inductive Severity where
  | warning
  | critical
deriving DecidableEq, Repr

/-- Originating source tag of a unified review. -/
inductive ReviewSource where
  | tripadvisor
  | google
deriving DecidableEq, Repr

/-- The closed 11-value issue-category enumeration (`VALID_ISSUE_KEYS` in the
ingestion scripts, mirroring the database schema). -/
def VALID_ISSUE_KEYS : List String :=
  ["power", "construction", "water", "wifi", "ac", "elevator",
   "noise", "pool", "restaurant", "cleaning", "other"]

/-- `validateIssueKey` from the ingestion scripts:
`const normalized = key?.toLowerCase().trim()` followed by
`VALID_ISSUE_KEYS.includes(normalized) ? normalized : 'other'`.
A missing key (optional chaining on `undefined`) yields `other`. -/
def validateIssueKey (key : Option String) : String :=
  match key with
  | none => "other"
  | some k =>
    let normalized := trimStr (toLowerStr k)
    if VALID_ISSUE_KEYS.contains normalized then normalized else "other"

/-- `isReviewWithinDateLimit` from the ingestion scripts, with the age limit
as an explicit parameter (`CONFIG.MAX_REVIEW_AGE_DAYS` in the source) and
dates modelled as integer day numbers: a zero limit means no limit at all,
otherwise the publish date must be at or after `now - maxAgeDays`. -/
def isReviewWithinDateLimit (maxAgeDays : Nat) (now publishDate : Int) : Bool :=
  if maxAgeDays = 0 then true
  else decide (now - (maxAgeDays : Int) ≤ publishDate)

/-- A raw TripAdvisor review (`TripAdvisorReview` in the source). -/
structure TAReview where
  id : String
  title : String
  text : String
  rating : Int
  published_date : Int
deriving DecidableEq, Repr

/-- The review filter applied inside `fetchTripAdvisorReviews`: keep the
reviews with `rating <= maxRating`, then keep the reviews within the date
limit. The per-venue cap (`slice(0, MAX_REVIEWS_PER_HOTEL)`) is a separate
step applied by the fetch after this filter. -/
def filterReviews (maxRating : Int) (maxAgeDays : Nat) (now : Int)
    (reviews : List TAReview) : List TAReview :=
  (reviews.filter (fun r => decide (r.rating ≤ maxRating))).filter
    (fun r => isReviewWithinDateLimit maxAgeDays now r.published_date)

/-- The three fields the model is asked to return, as produced by the JSON
decoder on the brace-delimited substring of the reply. Each field may be
absent from the decoded object. -/
structure ParsedLLM where
  insight : Option String
  issueKey : Option String
  severity : Option String
deriving DecidableEq, Repr

/-- Result of `transformReviewToSafetyInsight`. -/
structure TransformResult where
  insight : String
  issueKey : String
  severity : Severity
deriving DecidableEq, Repr

/-- Outcome of the DeepSeek HTTP call: the fetch throws, or a response with a
status code arrives and `data.choices?.[0]?.message?.content || ''` is the
extracted content string. -/
inductive DeepSeekOutcome where
  | netError
  | response (status : Nat) (content : String)
deriving DecidableEq, Repr

/-- The opening curly brace character. -/
def leftBrace : Char := Char.ofNat 123

/-- The closing curly brace character. -/
def rightBrace : Char := Char.ofNat 125

/-- First match of the greedy brace-extraction regex used on the model reply:
the substring from the first opening brace to the last closing brace that
occurs after it, if any. -/
def jsonMatch (s : String) : Option String :=
  let cs := s.toList
  match cs.findIdx? (fun c => c = leftBrace),
        cs.reverse.findIdx? (fun c => c = rightBrace) with
  | some i, some k =>
    let j := cs.length - 1 - k
    if i < j then some (String.mk ((cs.drop i).take (j - i + 1))) else none
  | _, _ => none

/-- The fixed fallback result returned from the catch handler of
`transformReviewToSafetyInsight`. -/
def fallbackResult : TransformResult :=
  { insight := "Guest reported concerns during their stay."
    issueKey := "other"
    severity := Severity.warning }

/-- Response handling of `transformReviewToSafetyInsight`: a thrown fetch or a
non-2xx status lands in the catch handler and yields `fallbackResult`; an ok
response has the brace-delimited substring of its content extracted and
decoded (the decoder is the external JSON library, passed as an oracle; a
decoder exception also lands in the catch handler); a reply without any
brace-delimited substring falls back to the truncated raw content. -/
def transformReviewToSafetyInsight (parse : String → Option ParsedLLM)
    (outcome : DeepSeekOutcome) : TransformResult :=
  match outcome with
  | DeepSeekOutcome.netError => fallbackResult
  | DeepSeekOutcome.response status content =>
    if 200 ≤ status ∧ status ≤ 299 then
      match jsonMatch content with
      | some m =>
        match parse m with
        | some parsed =>
          { insight :=
              match parsed.insight with
              | some ins => if ins = "" then "Safety concern reported by guest." else ins
              | none => "Safety concern reported by guest."
            issueKey := validateIssueKey parsed.issueKey
            severity :=
              if parsed.severity = some "critical" then Severity.critical
              else Severity.warning }
        | none => fallbackResult
      | none =>
        { insight :=
            if takeStr content 500 = "" then "Guest reported concerns during stay."
            else takeStr content 500
          issueKey := "other"
          severity := Severity.warning }
    else fallbackResult

/-- `CONFIG.MAX_REVIEW_RATING` of the main ingestion script. -/
def MAX_REVIEW_RATING : Int := 3

/-- `CONFIG.MAX_REVIEW_AGE_DAYS` of the main ingestion script (the top-hotels
script sets the same parameter to 0, meaning no limit). -/
def MAX_REVIEW_AGE_DAYS : Nat := 30

/-- `CONFIG.MAX_REVIEWS_PER_HOTEL`. -/
def MAX_REVIEWS_PER_HOTEL : Nat := 20

/-- `CONFIG.SYSTEM_REPORTER_NAME`. -/
def SYSTEM_REPORTER_NAME : String := "StayLive Assistant"

/-- A review in the uniform shape shared by both adapters
(`UnifiedReview` in the source). -/
structure UnifiedReview where
  id : String
  text : String
  rating : Int
  publishDate : Int
  source : ReviewSource
  authorName : Option String
deriving DecidableEq, Repr

/-- `convertTripAdvisorToUnified`: prefix the provider-native id with the
source tag and carry the remaining fields across. -/
def convertTripAdvisorToUnified (reviews : List TAReview) : List UnifiedReview :=
  reviews.map (fun r =>
    { id := "tripadvisor_" ++ r.id
      text := r.text
      rating := r.rating
      publishDate := r.published_date
      source := ReviewSource.tripadvisor
      authorName := none })

/-- A TripAdvisor location returned by the name search
(`TripAdvisorLocation` in the source). -/
structure TALocation where
  location_id : String
  name : String
deriving DecidableEq, Repr

/-- A venue row loaded from the store (`DatabaseHotel` in the source). -/
structure DatabaseHotel where
  name : String
  google_place_id : Option String
deriving DecidableEq, Repr

/-- The record the Persistence Writer inserts (`ProcessedReport` in the
source; the `source` column is the constant string `system`). -/
structure ProcessedReport where
  hotel_name : String
  issue_key : String
  severity : Severity
  description : String
  is_anonymous : Bool
  is_verified : Bool
  source : String
  system_reporter_name : Option String
  external_review_id : String
  external_review_date : Int
deriving DecidableEq, Repr

/-- Construction of the `ProcessedReport` inside the driver loop: anonymity
was decided before the model call, and an anonymous record carries no
system-reporter name. -/
def mkReport (hotelName : String) (t : TransformResult) (isAnonymous : Bool)
    (reviewId : String) (reviewDate : Int) : ProcessedReport :=
  { hotel_name := hotelName
    issue_key := t.issueKey
    severity := t.severity
    description := t.insight
    is_anonymous := isAnonymous
    is_verified := true
    source := "system"
    system_reporter_name := if isAnonymous then none else some SYSTEM_REPORTER_NAME
    external_review_id := reviewId
    external_review_date := reviewDate }

/-- `checkExistingReport`: the Supabase point lookup yields either no data
(`null`, the error case) or a list of matching row ids; the gate reports
existence exactly when data arrived and is nonempty
(`data !== null && data.length > 0`). -/
def checkExistingReport (queryData : Option (List String)) : Bool :=
  match queryData with
  | none => false
  | some rows => decide (0 < rows.length)

/-- The healthy store answering the dedup lookup: the issue table is the list
of already-persisted external review ids, and the query
`eq(external_review_id, id).limit(1)` returns the matching rows, at most
one. -/
def storeQuery (store : List String) (externalReviewId : String) :
    Option (List String) :=
  some ((store.filter (fun x => decide (x = externalReviewId))).take 1)

/-- `upsertReport` against the store: a plain insert that fails on the unique
constraint over the external review id and succeeds otherwise, returning the
updated table and the success boolean. -/
def upsertReport (store : List String) (report : ProcessedReport) :
    List String × Bool :=
  if report.external_review_id ∈ store then (store, false)
  else (report.external_review_id :: store, true)

/-- Externally visible effects of a run, in order: provider calls, model
calls and insert attempts. -/
inductive Effect where
  | taSearchEff (hotelName : String)
  | taFetchEff (locationId : String)
  | googleFetchEff (placeId : String)
  | modelEff (reviewId : String)
  | insertEff (report : ProcessedReport)
deriving DecidableEq, Repr

/-- Run-level state: the issue table (external review ids) plus the three
run counters and the count of model calls made so far (which indexes the
random-anonymity and model oracles). -/
structure RunState where
  store : List String
  totalReviews : Nat
  skipped : Nat
  written : Nat
  calls : Nat
deriving DecidableEq, Repr

/-- Fresh counters over a given issue table. -/
def initState (store : List String) : RunState :=
  { store := store, totalReviews := 0, skipped := 0, written := 0, calls := 0 }

/-- The external world of a run: the TripAdvisor search and reviews
endpoints, the Google place-details reviews endpoint (already normalized to
the unified shape), the anonymity coin flips, the DeepSeek outcomes and the
JSON decoder. A soft-failed call is a `none` search result or an empty
review list, exactly as the adapters degrade in the source. -/
structure Env where
  taSearch : String → Option TALocation
  taReviews : String → List TAReview
  googleReviewsAll : String → List UnifiedReview
  anonRand : Nat → Bool
  llm : Nat → DeepSeekOutcome
  jsonParse : String → Option ParsedLLM

/-- `fetchTripAdvisorReviews` of the main ingestion script: raw provider data
filtered by rating and date limit, then capped at the per-venue maximum. -/
def fetchTripAdvisorReviews (env : Env) (now : Int) (locationId : String) :
    List TAReview :=
  (filterReviews MAX_REVIEW_RATING MAX_REVIEW_AGE_DAYS now
    (env.taReviews locationId)).take MAX_REVIEWS_PER_HOTEL

/-- The negative reviews the driver processes for one venue: nothing when the
venue has no place id (skipped before any provider call); the converted
TripAdvisor reviews when the name search matched; otherwise the Google
fallback list, capped at the per-venue maximum and then filtered by rating
and date limit. -/
def hotelNegReviews (env : Env) (now : Int) (hotel : DatabaseHotel) :
    List UnifiedReview :=
  match hotel.google_place_id with
  | none => []
  | some pid =>
    match env.taSearch hotel.name with
    | some loc =>
      convertTripAdvisorToUnified (fetchTripAdvisorReviews env now loc.location_id)
    | none =>
      let g := (env.googleReviewsAll pid).take MAX_REVIEWS_PER_HOTEL
      if g.isEmpty then []
      else (g.filter (fun r => decide (r.rating ≤ MAX_REVIEW_RATING))).filter
        (fun r => isReviewWithinDateLimit MAX_REVIEW_AGE_DAYS now r.publishDate)

/-- The provider calls the driver makes for one venue: none when the venue
has no place id; the TripAdvisor search followed by the TripAdvisor review
fetch when the search matched; the TripAdvisor search followed by the Google
fallback fetch for the same venue when it did not. -/
def hotelFetchEffects (env : Env) (hotel : DatabaseHotel) : List Effect :=
  match hotel.google_place_id with
  | none => []
  | some pid =>
    match env.taSearch hotel.name with
    | some loc => [Effect.taSearchEff hotel.name, Effect.taFetchEff loc.location_id]
    | none => [Effect.taSearchEff hotel.name, Effect.googleFetchEff pid]

/-- The per-review step of the driver loop, with the dedup-gate query outcome
passed in explicitly: count the review; when the gate reports existence, bump
the duplicate counter and stop; otherwise decide anonymity, call the model,
build the report and attempt the insert. -/
def processReviewQ (env : Env) (hotelName : String)
    (queryData : Option (List String)) (s : RunState) (review : UnifiedReview) :
    RunState × List Effect :=
  let s1 : RunState := { s with totalReviews := s.totalReviews + 1 }
  if checkExistingReport queryData then
    ({ s1 with skipped := s1.skipped + 1 }, [])
  else
    let isAnonymous := env.anonRand s1.calls
    let transformed := transformReviewToSafetyInsight env.jsonParse (env.llm s1.calls)
    let report := mkReport hotelName transformed isAnonymous review.id review.publishDate
    let inserted := upsertReport s1.store report
    ({ s1 with
        store := inserted.1
        calls := s1.calls + 1
        written := s1.written + (if inserted.2 then 1 else 0) },
     [Effect.modelEff review.id, Effect.insertEff report])

/-- The per-review step with the dedup gate reading the healthy store. -/
def processReview (env : Env) (hotelName : String) (s : RunState)
    (review : UnifiedReview) : RunState × List Effect :=
  processReviewQ env hotelName (storeQuery s.store review.id) s review

/-- The inner review loop of the driver: sequential, one review at a time. -/
def processReviews (env : Env) (hotelName : String) (s : RunState) :
    List UnifiedReview → RunState × List Effect
  | [] => (s, [])
  | review :: rest =>
    let step := processReview env hotelName s review
    let tail := processReviews env hotelName step.1 rest
    (tail.1, step.2 ++ tail.2)

/-- The per-venue step of the driver: fetch effects followed by the inner
review loop over this venue's negative reviews. -/
def processHotel (env : Env) (now : Int) (s : RunState) (hotel : DatabaseHotel) :
    RunState × List Effect :=
  let res := processReviews env hotel.name s (hotelNegReviews env now hotel)
  (res.1, hotelFetchEffects env hotel ++ res.2)

/-- The outer venue loop of the driver: sequential, one venue at a time. -/
def runHotels (env : Env) (now : Int) (s : RunState) :
    List DatabaseHotel → RunState × List Effect
  | [] => (s, [])
  | hotel :: rest =>
    let step := processHotel env now s hotel
    let tail := runHotels env now step.1 rest
    (tail.1, step.2 ++ tail.2)

/-- The five environment values `validateConfig` of the main ingestion script
requires; a missing variable is the empty string (`process.env.X || ''`). -/
structure Config where
  googleMapsApiKey : String
  tripadvisorApiKey : String
  deepseekApiKey : String
  supabaseUrl : String
  supabaseServiceKey : String
deriving DecidableEq, Repr

/-- The required-key filter of `validateConfig`: names of required
configuration values that are falsy (empty). -/
def missingConfigKeys (c : Config) : List String :=
  (([("GOOGLE_MAPS_API_KEY", c.googleMapsApiKey),
     ("TRIPADVISOR_API_KEY", c.tripadvisorApiKey),
     ("DEEPSEEK_API_KEY", c.deepseekApiKey),
     ("SUPABASE_URL", c.supabaseUrl),
     ("SUPABASE_SERVICE_KEY", c.supabaseServiceKey)].filter
       (fun kv => decide (kv.2 = ""))).map Prod.fst)

/-- One scan step of the prompt regex: does the marker list start here. -/
def takeUntilMarker (marker : List Char) : List Char → Option (List Char)
  | [] => none
  | c :: rest =>
    if marker.isPrefixOf (c :: rest) then some []
    else (takeUntilMarker marker rest).map (fun t => c :: t)

/-- The backtick fence of the prompt file section. -/
def tickFence : List Char := ['`', '`', '`']

/-- The section heading the prompt regex looks for. -/
def promptMarker : List Char := "## System Prompt".toList

/-- The scan of the prompt-extraction regex
(heading, optional whitespace, an opening fence, a lazily captured body, a
closing fence), tried at every position like the JS regex engine does. -/
def parsePromptFrom : List Char → Option (List Char)
  | [] => none
  | c :: rest =>
    if promptMarker.isPrefixOf (c :: rest) then
      let afterHeading := ((c :: rest).drop promptMarker.length).dropWhile Char.isWhitespace
      if tickFence.isPrefixOf afterHeading then
        match takeUntilMarker tickFence (afterHeading.drop tickFence.length) with
        | some captured => some captured
        | none => parsePromptFrom rest
      else parsePromptFrom rest
    else parsePromptFrom rest

/-- `loadSystemPrompt`: the prompt file content is read (here passed in as an
`Option`, `none` for a missing or unreadable file), the fenced System Prompt
section is extracted and trimmed; any failure is fatal and surfaces as
`none`. -/
def loadSystemPrompt (file : Option String) : Option String :=
  file.bind (fun content =>
    (parsePromptFrom content.toList).map (fun cs => trimStr (String.mk cs)))

/-- Everything `runIngestion` of the main ingestion script consumes: the
configuration, the prompt file content, the cohort the store query returned,
and the runtime oracles. -/
structure IngestEnv where
  config : Config
  promptFile : Option String
  hotels : List DatabaseHotel
  env : Env

/-- Terminal state of a run: aborted via `process.exit(1)`, or completed with
the final counters and effect trace. -/
inductive RunOutcome where
  | aborted (reason : String)
  | completed (s : RunState) (effects : List Effect)

/-- `runIngestion` of the main ingestion script: abort on missing
configuration, abort on a missing or unparsable prompt file, abort on an
empty cohort, and otherwise run the venue loop to completion (every failure
inside the loop is modelled as a soft result in `Env`, as in the source). -/
def runIngestion (ie : IngestEnv) (now : Int) (store : List String) : RunOutcome :=
  if 0 < (missingConfigKeys ie.config).length then
    RunOutcome.aborted "missing required environment variables"
  else
    match loadSystemPrompt ie.promptFile with
    | none => RunOutcome.aborted "prompt file missing or unparsable"
    | some _ =>
      if ie.hotels.length = 0 then RunOutcome.aborted "no hotels found"
      else
        let res := runHotels ie.env now (initState store) ie.hotels
        RunOutcome.completed res.1 res.2

/-- Process exit code of a run outcome. -/
def exitCode : RunOutcome → Nat
  | RunOutcome.aborted _ => 1
  | RunOutcome.completed _ _ => 0

/-- A row of the `reports` table as the writer inserts it; `hotel_id` is a
column of the table but the insert in `upsertReport` never sets it, so the
row carries the column default. -/
structure ReportsRow where
  hotel_id : Option String
  hotel_name : String
  issue_key : String
  severity : Severity
  description : String
  reporter_id : Option String
  is_anonymous : Bool
  is_verified : Bool
  source : String
  system_reporter_name : Option String
  external_review_id : String
  external_review_date : Int
  created_at : Int
deriving DecidableEq, Repr

/-- The exact row the insert statement of `upsertReport` produces: reporter
and hotel references are null, the record is verified and system-sourced, and
`created_at` is the original review publish date. -/
def insertedReportRow (r : ProcessedReport) : ReportsRow :=
  { hotel_id := none
    hotel_name := r.hotel_name
    issue_key := r.issue_key
    severity := r.severity
    description := r.description
    reporter_id := none
    is_anonymous := r.is_anonymous
    is_verified := true
    source := "system"
    system_reporter_name := r.system_reporter_name
    external_review_id := r.external_review_id
    external_review_date := r.external_review_date
    created_at := r.external_review_date }

/-- A venue row as `fetchUnprocessedHotels` selects it
(`id, name, google_place_id`). -/
structure HotelRow where
  id : String
  name : String
  google_place_id : Option String
deriving DecidableEq, Repr

/-- Swap two positions of a list, identity when either is out of range. -/
def listSwap {α : Type} (l : List α) (i j : Nat) : List α :=
  match l[i]?, l[j]? with
  | some a, some b => (l.set i b).set j a
  | _, _ => l

/-- The descending Fisher-Yates loop: at loop index `i` swap position `i`
with a random position in `[0, i]`. -/
def fyAux {α : Type} (randF : Nat → Nat) : Nat → List α → List α
  | 0, l => l
  | Nat.succ i, l => fyAux randF i (listSwap l (i + 1) (randF (i + 1) % (i + 2)))

/-- The Fisher-Yates shuffle of the cohort selectors, with the random draws
supplied by an oracle (`Math.floor(Math.random() * (i + 1))` at index `i`). -/
def fisherYates {α : Type} (randF : Nat → Nat) (l : List α) : List α :=
  fyAux randF (l.length - 1) l

/-- `fetchUnprocessedHotels`: collect the non-null `hotel_id` values present
in the reports table (dropping falsy ids), keep the venues with a place id
whose internal id is not among them, then shuffle and take the first
`count`. -/
def fetchUnprocessedHotels (randF : Nat → Nat) (count : Nat)
    (reports : List ReportsRow) (hotels : List HotelRow) : List HotelRow :=
  let processedRows := reports.filter (fun r => r.hotel_id.isSome)
  let processedHotelIds :=
    (processedRows.filterMap (fun r => r.hotel_id)).filter (fun x => decide (x ≠ ""))
  let allHotels := hotels.filter (fun h => h.google_place_id.isSome)
  let unprocessed := allHotels.filter (fun h => ! processedHotelIds.contains h.id)
  if unprocessed.isEmpty then []
  else (fisherYates randF unprocessed).take (min count unprocessed.length)

theorem isReviewWithinDateLimit_iff (maxAgeDays : Nat) (now publishDate : Int) :
    isReviewWithinDateLimit maxAgeDays now publishDate = true ↔
      (maxAgeDays = 0 ∨ now - (maxAgeDays : Int) ≤ publishDate) := by
  unfold isReviewWithinDateLimit
  split <;> simp_all

/-- C2: the review filter keeps a review exactly when its rating is at most
`maxRating` and it passes the date limit (with a zero limit passing every
review), it preserves input order (its output is a sublist of its input), and
at `maxRating = 3, maxAgeDays = 0` it is exactly the rating-only filter: the
zero sentinel is no age limit, never reject-everything. The per-venue cap of
the adapters is a separate later step. -/
theorem review_filter_correct (maxRating : Int) (maxAgeDays : Nat) (now : Int)
    (rs : List TAReview) :
    (filterReviews maxRating maxAgeDays now rs).Sublist rs ∧
    (∀ r : TAReview, r ∈ filterReviews maxRating maxAgeDays now rs ↔
      (r ∈ rs ∧ r.rating ≤ maxRating ∧
        (maxAgeDays = 0 ∨ now - (maxAgeDays : Int) ≤ r.published_date))) ∧
    filterReviews maxRating 0 now rs =
      rs.filter (fun r => decide (r.rating ≤ maxRating)) := by
  refine ⟨(List.filter_sublist _).trans (List.filter_sublist _), ?_, ?_⟩
  · intro r
    simp [filterReviews, List.mem_filter, isReviewWithinDateLimit_iff, and_assoc]
    tauto
  · simp [filterReviews, isReviewWithinDateLimit]

/-- C5 (amended): the category validator coerces every string whose
lowercased and trimmed form is outside the 11-value enumeration to `other`,
never rejects (its result is always a member of the enumeration), and maps a
missing key to `other`. The comparison in the code trims, so the original
claim's untrimmed reading fails (see the counterexample). -/
theorem validateIssueKey_coerces (s : String) :
    (trimStr (toLowerStr s) ∉ VALID_ISSUE_KEYS → validateIssueKey (some s) = "other") ∧
    validateIssueKey (some s) ∈ VALID_ISSUE_KEYS ∧
    validateIssueKey none = "other" := by
  have hother : ("other" : String) ∈ VALID_ISSUE_KEYS := by decide
  unfold validateIssueKey
  by_cases hc : VALID_ISSUE_KEYS.contains (trimStr (toLowerStr s)) = true
  · have hmem : trimStr (toLowerStr s) ∈ VALID_ISSUE_KEYS := by simpa using hc
    simp only [hc, if_true]
    exact ⟨fun hnot => absurd hmem hnot, hmem, trivial⟩
  · have hcf : VALID_ISSUE_KEYS.contains (trimStr (toLowerStr s)) = false := by
      simpa using hc
    simp only [hcf, Bool.false_eq_true, if_false]
    exact ⟨fun _ => trivial, hother, trivial⟩

/-- C5 counterexample: the string consisting of `power` with surrounding
blanks is not in the enumeration under case-insensitive comparison without
trimming, yet the validator yields `power`, not `other`: the code trims
before comparing. -/
theorem validateIssueKey_untrimmed_cx :
    validateIssueKey (some " power ") = "power" ∧
    toLowerStr " power " ∉ VALID_ISSUE_KEYS ∧
    ("power" : String) ≠ "other" := by
  refine ⟨by decide, by decide, by decide⟩

/-- C3 (amended): a thrown fetch, a non-2xx status, or a JSON-decode
exception on the extracted brace-delimited substring each yield the fixed
fallback result without raising; a 2xx reply containing no brace-delimited
substring also does not raise and still falls back to category `other` and
severity `warning`, but its insight is the raw reply truncated to 500
characters (the generic sentence only when the reply is empty). -/
theorem transform_failure_fallback (parse : String → Option ParsedLLM)
    (status : Nat) (content : String) :
    transformReviewToSafetyInsight parse DeepSeekOutcome.netError = fallbackResult ∧
    (¬ (200 ≤ status ∧ status ≤ 299) →
      transformReviewToSafetyInsight parse (DeepSeekOutcome.response status content) =
        fallbackResult) ∧
    (∀ m, jsonMatch content = some m → parse m = none →
      transformReviewToSafetyInsight parse (DeepSeekOutcome.response status content) =
        fallbackResult) ∧
    (jsonMatch content = none → (200 ≤ status ∧ status ≤ 299) →
      transformReviewToSafetyInsight parse (DeepSeekOutcome.response status content) =
        { insight :=
            if takeStr content 500 = "" then "Guest reported concerns during stay."
            else takeStr content 500
          issueKey := "other"
          severity := Severity.warning }) := by
  refine ⟨rfl, ?_, ?_, ?_⟩
  · intro hbad
    simp [transformReviewToSafetyInsight, hbad]
  · intro m hm hp
    by_cases hok : 200 ≤ status ∧ status ≤ 299 <;>
      simp [transformReviewToSafetyInsight, hok, hm, hp]
  · intro hm hok
    simp [transformReviewToSafetyInsight, hok, hm]

/-- C3 counterexample: a 2xx reply `hello` contains no brace-delimited
substring, so parsing the model reply fails, yet the transformer result is
not the fixed fallback: its insight is the raw reply, not a generic
guest-concern sentence. -/
theorem transform_no_json_cx :
    jsonMatch "hello" = none ∧
    (transformReviewToSafetyInsight (fun _ => none)
      (DeepSeekOutcome.response 200 "hello")).insight = "hello" ∧
    transformReviewToSafetyInsight (fun _ => none)
      (DeepSeekOutcome.response 200 "hello") ≠ fallbackResult ∧
    (transformReviewToSafetyInsight (fun _ => none)
      (DeepSeekOutcome.response 200 "hello")).insight ≠
        "Guest reported concerns during stay." := by
  refine ⟨by decide, by decide, by decide, by decide⟩

/-- C4: the transformer result severity is `critical` exactly when the reply
arrived with a 2xx status, contained a brace-delimited substring that
decoded, and the decoded severity field literally equals `critical`; every
other or missing value (any other casing included) gives `warning`, and the
persisted report copies the transformer severity unchanged. -/
theorem severity_critical_iff (parse : String → Option ParsedLLM)
    (outcome : DeepSeekOutcome) :
    ((transformReviewToSafetyInsight parse outcome).severity = Severity.critical ↔
      (∃ status content m parsed,
        outcome = DeepSeekOutcome.response status content ∧
        (200 ≤ status ∧ status ≤ 299) ∧
        jsonMatch content = some m ∧
        parse m = some parsed ∧
        parsed.severity = some "critical")) ∧
    (∀ (hotelName : String) (t : TransformResult) (isAnonymous : Bool)
        (reviewId : String) (reviewDate : Int),
      (mkReport hotelName t isAnonymous reviewId reviewDate).severity = t.severity) := by
  refine ⟨?_, fun _ _ _ _ _ => rfl⟩
  cases outcome with
  | netError => simp [transformReviewToSafetyInsight, fallbackResult]
  | response st ct =>
    constructor
    · intro h
      by_cases hok : 200 ≤ st ∧ st ≤ 299
      · cases hm : jsonMatch ct with
        | none => simp [transformReviewToSafetyInsight, hok, hm, fallbackResult] at h
        | some m =>
          cases hp : parse m with
          | none => simp [transformReviewToSafetyInsight, hok, hm, hp, fallbackResult] at h
          | some parsed =>
            by_cases hs : parsed.severity = some "critical"
            · exact ⟨st, ct, m, parsed, rfl, hok, hm, hp, hs⟩
            · simp [transformReviewToSafetyInsight, hok, hm, hp, hs] at h
      · simp [transformReviewToSafetyInsight, hok, fallbackResult] at h
    · rintro ⟨status, content, m, parsed, heq, hok, hm, hp, hs⟩
      cases heq
      simp [transformReviewToSafetyInsight, hok, hm, hp, hs]

theorem checkExisting_storeQuery (store : List String) (id : String) :
    checkExistingReport (storeQuery store id) = true ↔ id ∈ store := by
  induction store with
  | nil => simp [checkExistingReport, storeQuery]
  | cons a t ih =>
    by_cases ha : a = id
    · subst ha
      simp [checkExistingReport, storeQuery]
    · simpa [checkExistingReport, storeQuery, List.filter_cons, ha, Ne.symm ha]
        using ih

theorem processReview_skip (env : Env) (hotelName : String) (s : RunState)
    (rv : UnifiedReview) (h : rv.id ∈ s.store) :
    processReview env hotelName s rv =
      ({ s with totalReviews := s.totalReviews + 1, skipped := s.skipped + 1 }, []) := by
  have hc : checkExistingReport (storeQuery s.store rv.id) = true :=
    (checkExisting_storeQuery _ _).mpr h
  simp [processReview, processReviewQ, hc]

theorem processReview_store (env : Env) (hotelName : String) (s : RunState)
    (rv : UnifiedReview) :
    s.store ⊆ (processReview env hotelName s rv).1.store ∧
    rv.id ∈ (processReview env hotelName s rv).1.store := by
  unfold processReview processReviewQ
  by_cases hc : checkExistingReport (storeQuery s.store rv.id) = true
  · simp only [hc, if_true]
    exact ⟨fun x hx => hx, (checkExisting_storeQuery _ _).mp hc⟩
  · have hb : checkExistingReport (storeQuery s.store rv.id) = false := by simpa using hc
    simp only [hb, Bool.false_eq_true, if_false]
    simp only [upsertReport, mkReport]
    by_cases hm : rv.id ∈ s.store
    · simp only [hm, if_true]
      exact ⟨fun x hx => hx, by simp [hm]⟩
    · simp only [hm, if_false]
      exact ⟨fun x hx => List.mem_cons_of_mem _ hx, List.mem_cons_self _ _⟩

theorem processReview_effects_shape (env : Env) (hotelName : String) (s : RunState)
    (rv : UnifiedReview) :
    ∀ e ∈ (processReview env hotelName s rv).2,
      (∃ rid, e = Effect.modelEff rid) ∨ ∃ r, e = Effect.insertEff r := by
  intro e he
  unfold processReview processReviewQ at he
  by_cases hc : checkExistingReport (storeQuery s.store rv.id) = true
  · simp [hc] at he
  · have hb : checkExistingReport (storeQuery s.store rv.id) = false := by simpa using hc
    simp [hb] at he
    rcases he with h | h
    · exact Or.inl ⟨_, h⟩
    · exact Or.inr ⟨_, h⟩

theorem processReview_insert_shape (env : Env) (hotelName : String) (s : RunState)
    (rv : UnifiedReview) (r : ProcessedReport)
    (h : Effect.insertEff r ∈ (processReview env hotelName s rv).2) :
    ∃ t isAnon rid rdate, r = mkReport hotelName t isAnon rid rdate := by
  unfold processReview processReviewQ at h
  by_cases hc : checkExistingReport (storeQuery s.store rv.id) = true
  · simp [hc] at h
  · have hb : checkExistingReport (storeQuery s.store rv.id) = false := by simpa using hc
    simp [hb] at h
    exact ⟨_, _, _, _, h⟩

theorem processReviews_store (env : Env) (hotelName : String) :
    ∀ (rvs : List UnifiedReview) (s : RunState),
      s.store ⊆ (processReviews env hotelName s rvs).1.store ∧
      ∀ rv ∈ rvs, rv.id ∈ (processReviews env hotelName s rvs).1.store := by
  intro rvs
  induction rvs with
  | nil => intro s; exact ⟨fun x hx => hx, by simp⟩
  | cons rv rest ih =>
    intro s
    have hstep := processReview_store env hotelName s rv
    have htail := ih (processReview env hotelName s rv).1
    refine ⟨fun x hx => htail.1 (hstep.1 hx), ?_⟩
    intro r hr
    rcases List.mem_cons.mp hr with h1 | h2
    · subst h1; exact htail.1 hstep.2
    · exact htail.2 r h2

theorem processReviews_effects_shape (env : Env) (hotelName : String) :
    ∀ (rvs : List UnifiedReview) (s : RunState) (e : Effect),
      e ∈ (processReviews env hotelName s rvs).2 →
      (∃ rid, e = Effect.modelEff rid) ∨ ∃ r, e = Effect.insertEff r := by
  intro rvs
  induction rvs with
  | nil => intro s e he; simp [processReviews] at he
  | cons rv rest ih =>
    intro s e he
    simp only [processReviews] at he
    rcases List.mem_append.mp he with h | h
    · exact processReview_effects_shape env hotelName s rv e h
    · exact ih _ e h

theorem processReviews_insert_shape (env : Env) (hotelName : String) :
    ∀ (rvs : List UnifiedReview) (s : RunState) (r : ProcessedReport),
      Effect.insertEff r ∈ (processReviews env hotelName s rvs).2 →
      ∃ t isAnon rid rdate, r = mkReport hotelName t isAnon rid rdate := by
  intro rvs
  induction rvs with
  | nil => intro s r h; simp [processReviews] at h
  | cons rv rest ih =>
    intro s r h
    simp only [processReviews] at h
    rcases List.mem_append.mp h with h1 | h1
    · exact processReview_insert_shape env hotelName s rv r h1
    · exact ih _ r h1

theorem processReviews_allskip (env : Env) (hotelName : String) :
    ∀ (rvs : List UnifiedReview) (s : RunState), (∀ rv ∈ rvs, rv.id ∈ s.store) →
      processReviews env hotelName s rvs =
        ({ s with totalReviews := s.totalReviews + rvs.length,
                  skipped := s.skipped + rvs.length }, []) := by
  intro rvs
  induction rvs with
  | nil => intro s _; simp [processReviews]
  | cons rv rest ih =>
    intro s hall
    have hmem : rv.id ∈ s.store := hall rv (List.mem_cons_self _ _)
    have hrest := ih { s with totalReviews := s.totalReviews + 1, skipped := s.skipped + 1 }
      (fun r hr => hall r (List.mem_cons_of_mem _ hr))
    simp only [processReviews, processReview_skip env hotelName s rv hmem, hrest,
      List.length_cons, List.append_nil]
    simp only [Nat.add_assoc, Nat.add_comm 1 rest.length]

theorem processHotel_fst (env : Env) (now : Int) (s : RunState) (hotel : DatabaseHotel) :
    (processHotel env now s hotel).1 =
      (processReviews env hotel.name s (hotelNegReviews env now hotel)).1 := rfl

theorem processHotel_snd (env : Env) (now : Int) (s : RunState) (hotel : DatabaseHotel) :
    (processHotel env now s hotel).2 =
      hotelFetchEffects env hotel ++
        (processReviews env hotel.name s (hotelNegReviews env now hotel)).2 := rfl

theorem hotelFetchEffects_shape (env : Env) (hotel : DatabaseHotel) :
    ∀ e ∈ hotelFetchEffects env hotel,
      (∀ rid, e ≠ Effect.modelEff rid) ∧
      (∀ r, e ≠ Effect.insertEff r) ∧
      (env.taSearch hotel.name = none ∨ ∀ pid, e ≠ Effect.googleFetchEff pid) := by
  intro e he
  unfold hotelFetchEffects at he
  cases hpid : hotel.google_place_id with
  | none => simp [hpid] at he
  | some pid =>
    cases hsearch : env.taSearch hotel.name with
    | some loc =>
      simp [hpid, hsearch] at he
      rcases he with rfl | rfl
      · exact ⟨fun _ => by simp, fun _ => by simp, Or.inr fun _ => by simp⟩
      · exact ⟨fun _ => by simp, fun _ => by simp, Or.inr fun _ => by simp⟩
    | none =>
      simp [hpid, hsearch] at he
      rcases he with rfl | rfl
      · exact ⟨fun _ => by simp, fun _ => by simp, Or.inl rfl⟩
      · exact ⟨fun _ => by simp, fun _ => by simp, Or.inl rfl⟩

theorem runHotels_store (env : Env) (now : Int) :
    ∀ (hotels : List DatabaseHotel) (s : RunState),
      s.store ⊆ (runHotels env now s hotels).1.store ∧
      ∀ h ∈ hotels, ∀ rv ∈ hotelNegReviews env now h,
        rv.id ∈ (runHotels env now s hotels).1.store := by
  intro hotels
  induction hotels with
  | nil => intro s; exact ⟨fun x hx => hx, by simp⟩
  | cons h rest ih =>
    intro s
    have hstep := processReviews_store env h.name (hotelNegReviews env now h) s
    have htail := ih (processHotel env now s h).1
    refine ⟨fun x hx => htail.1 ?_, ?_⟩
    · rw [processHotel_fst]
      exact hstep.1 hx
    · intro h2 hh2 rv hrv
      rcases List.mem_cons.mp hh2 with h1 | h1
      · subst h1
        refine htail.1 ?_
        rw [processHotel_fst]
        exact hstep.2 rv hrv
      · exact htail.2 h2 h1 rv hrv

theorem runHotels_allskip (env : Env) (now : Int) :
    ∀ (hotels : List DatabaseHotel) (s : RunState),
      (∀ h ∈ hotels, ∀ rv ∈ hotelNegReviews env now h, rv.id ∈ s.store) →
      (runHotels env now s hotels).1.store = s.store ∧
      (runHotels env now s hotels).1.written = s.written ∧
      ((runHotels env now s hotels).1.skipped + s.totalReviews =
        (runHotels env now s hotels).1.totalReviews + s.skipped) ∧
      ∀ e ∈ (runHotels env now s hotels).2,
        (∀ rid, e ≠ Effect.modelEff rid) ∧ (∀ r, e ≠ Effect.insertEff r) := by
  intro hotels
  induction hotels with
  | nil =>
    intro s _
    exact ⟨rfl, rfl, Nat.add_comm _ _, by simp [runHotels]⟩
  | cons h rest ih =>
    intro s hall
    have hallh : ∀ rv ∈ hotelNegReviews env now h, rv.id ∈ s.store :=
      hall h (List.mem_cons_self _ _)
    have hskip := processReviews_allskip env h.name (hotelNegReviews env now h) s hallh
    have hfst : (processHotel env now s h).1 =
        { s with totalReviews := s.totalReviews + (hotelNegReviews env now h).length,
                 skipped := s.skipped + (hotelNegReviews env now h).length } := by
      rw [processHotel_fst, hskip]
    have hfstS : (processHotel env now s h).1.store = s.store := by rw [hfst]
    have hfstW : (processHotel env now s h).1.written = s.written := by rw [hfst]
    have hfstT : (processHotel env now s h).1.totalReviews =
        s.totalReviews + (hotelNegReviews env now h).length := by rw [hfst]
    have hfstK : (processHotel env now s h).1.skipped =
        s.skipped + (hotelNegReviews env now h).length := by rw [hfst]
    have htail := ih (processHotel env now s h).1
      (by
        intro h2 hh2 rv hrv
        rw [hfstS]
        exact hall h2 (List.mem_cons_of_mem _ hh2) rv hrv)
    refine ⟨?_, ?_, ?_, ?_⟩
    · rw [show (runHotels env now s (h :: rest)).1 =
          (runHotels env now (processHotel env now s h).1 rest).1 from rfl]
      rw [htail.1, hfstS]
    · rw [show (runHotels env now s (h :: rest)).1 =
          (runHotels env now (processHotel env now s h).1 rest).1 from rfl]
      rw [htail.2.1, hfstW]
    · have h3 := htail.2.2.1
      rw [show (runHotels env now s (h :: rest)).1 =
          (runHotels env now (processHotel env now s h).1 rest).1 from rfl]
      omega
    · intro e he
      rw [show (runHotels env now s (h :: rest)).2 =
          (processHotel env now s h).2 ++
            (runHotels env now (processHotel env now s h).1 rest).2 from rfl] at he
      rcases List.mem_append.mp he with h1 | h1
      · rw [processHotel_snd] at h1
        rcases List.mem_append.mp h1 with h2 | h2
        · have := hotelFetchEffects_shape env h e h2
          exact ⟨this.1, this.2.1⟩
        · rw [hskip] at h2
          simp at h2
      · exact htail.2.2.2 e h1

theorem runHotels_insert_shape (env : Env) (now : Int) :
    ∀ (hotels : List DatabaseHotel) (s : RunState) (r : ProcessedReport),
      Effect.insertEff r ∈ (runHotels env now s hotels).2 →
      ∃ hotelName t isAnon rid rdate, r = mkReport hotelName t isAnon rid rdate := by
  intro hotels
  induction hotels with
  | nil => intro s r h; simp [runHotels] at h
  | cons h rest ih =>
    intro s r hmem
    rw [show (runHotels env now s (h :: rest)).2 =
        (processHotel env now s h).2 ++
          (runHotels env now (processHotel env now s h).1 rest).2 from rfl] at hmem
    rcases List.mem_append.mp hmem with h1 | h1
    · rw [processHotel_snd] at h1
      rcases List.mem_append.mp h1 with h2 | h2
      · exact absurd rfl ((hotelFetchEffects_shape env h _ h2).2.1 r)
      · obtain ⟨t, a, rid, rd, hr⟩ :=
          processReviews_insert_shape env h.name (hotelNegReviews env now h) s r h2
        exact ⟨h.name, t, a, rid, rd, hr⟩
    · exact ih _ r h1

theorem mkReport_attribution (hotelName : String) (t : TransformResult)
    (isAnon : Bool) (rid : String) (rdate : Int) :
    ((mkReport hotelName t isAnon rid rdate).is_anonymous = true ↔
      (mkReport hotelName t isAnon rid rdate).system_reporter_name = none) ∧
    ((mkReport hotelName t isAnon rid rdate).is_anonymous = false →
      (mkReport hotelName t isAnon rid rdate).system_reporter_name =
        some SYSTEM_REPORTER_NAME) := by
  cases isAnon <;> simp [mkReport]

/-- C1: a review whose external id is already in the issue table is counted,
the duplicate counter is incremented, and no model call and no insert happen
for it (the step produces no effects at all); consequently a second run of
the venue loop over the same upstream data, starting from the store the first
run produced, writes zero records, leaves the store unchanged, skips every
review it sees, and makes no model call and no insert attempt. -/
theorem dedup_skip_and_idempotence (env : Env) (now : Int) (store : List String)
    (hotels : List DatabaseHotel) :
    (∀ (s : RunState) (hotelName : String) (rv : UnifiedReview), rv.id ∈ s.store →
      processReview env hotelName s rv =
        ({ s with totalReviews := s.totalReviews + 1, skipped := s.skipped + 1 }, [])) ∧
    ((runHotels env now
        (initState (runHotels env now (initState store) hotels).1.store) hotels).1.written
          = 0 ∧
     (runHotels env now
        (initState (runHotels env now (initState store) hotels).1.store) hotels).1.store
          = (runHotels env now (initState store) hotels).1.store ∧
     (runHotels env now
        (initState (runHotels env now (initState store) hotels).1.store) hotels).1.skipped
          = (runHotels env now
              (initState (runHotels env now (initState store) hotels).1.store)
              hotels).1.totalReviews ∧
     ∀ e ∈ (runHotels env now
        (initState (runHotels env now (initState store) hotels).1.store) hotels).2,
       (∀ rid, e ≠ Effect.modelEff rid) ∧ ∀ r, e ≠ Effect.insertEff r) := by
  refine ⟨fun s hotelName rv h => processReview_skip env hotelName s rv h, ?_⟩
  have hall : ∀ h ∈ hotels, ∀ rv ∈ hotelNegReviews env now h,
      rv.id ∈ (initState (runHotels env now (initState store) hotels).1.store).store :=
    fun h hh rv hrv => (runHotels_store env now hotels (initState store)).2 h hh rv hrv
  have hrun := runHotels_allskip env now hotels
    (initState (runHotels env now (initState store) hotels).1.store) hall
  refine ⟨?_, ?_, ?_, hrun.2.2.2⟩
  · rw [hrun.2.1]
    rfl
  · rw [hrun.1]
    rfl
  · have h3 := hrun.2.2.1
    simpa [initState] using h3

/-- C6: every report the venue loop attempts to insert has its anonymity flag
true exactly when its system-reporter name is absent, and when not anonymous
it carries the configured reporter name. -/
theorem anonymity_attribution_exclusive (env : Env) (now : Int) (store : List String)
    (hotels : List DatabaseHotel) (r : ProcessedReport)
    (h : Effect.insertEff r ∈ (runHotels env now (initState store) hotels).2) :
    (r.is_anonymous = true ↔ r.system_reporter_name = none) ∧
    (r.is_anonymous = false →
      r.system_reporter_name = some SYSTEM_REPORTER_NAME) := by
  obtain ⟨hn, t, a, rid, rd, hr⟩ :=
    runHotels_insert_shape env now hotels (initState store) r h
  subst hr
  exact mkReport_attribution hn t a rid rd

/-- C7: when a venue has a place id and the TripAdvisor name search yields no
match (including its soft failures), the driver fetches the Google reviews of
that same venue; when the search matched, no Google fetch happens for that
venue — the fallback decision is per venue. -/
theorem provider_fallback_per_venue (env : Env) (now : Int) (s : RunState)
    (hotel : DatabaseHotel) (pid : String) (loc : TALocation) :
    (hotel.google_place_id = some pid → env.taSearch hotel.name = none →
      Effect.googleFetchEff pid ∈ (processHotel env now s hotel).2) ∧
    (env.taSearch hotel.name = some loc →
      ∀ pid2, Effect.googleFetchEff pid2 ∉ (processHotel env now s hotel).2) := by
  constructor
  · intro hpid hsearch
    rw [processHotel_snd]
    apply List.mem_append_left
    unfold hotelFetchEffects
    simp [hpid, hsearch]
  · intro hsearch pid2 hmem
    rw [processHotel_snd] at hmem
    rcases List.mem_append.mp hmem with h1 | h1
    · have := (hotelFetchEffects_shape env hotel _ h1).2.2
      rcases this with h2 | h2
      · rw [hsearch] at h2; cases h2
      · exact h2 pid2 rfl
    · rcases processReviews_effects_shape env hotel.name _ s _ h1 with ⟨rid, he⟩ | ⟨r, he⟩ <;>
        simp at he

/-- C10: the Deduplication Gate fails open: a store-read failure (the query
yields no data) makes the existence check return false, and the per-review
step then proceeds to the model call and the insert attempt for that review;
the gate itself is a total function and never blocks a review on a read
failure. -/
theorem dedup_gate_fails_open (env : Env) (hotelName : String) (s : RunState)
    (review : UnifiedReview) :
    checkExistingReport none = false ∧
    (processReviewQ env hotelName none s review).2 =
      [Effect.modelEff review.id,
       Effect.insertEff (mkReport hotelName
         (transformReviewToSafetyInsight env.jsonParse (env.llm s.calls))
         (env.anonRand s.calls) review.id review.publishDate)] := by
  exact ⟨rfl, rfl⟩

/-- A concrete world for the attribution witness: one venue found on
TripAdvisor with one fresh negative review, an empty issue table, a failed
model call and a non-anonymous coin flip. -/
def c6Env : Env :=
  { taSearch := fun _ => some { location_id := "L1", name := "Grand Hyatt Melbourne" }
    taReviews := fun _ =>
      [{ id := "r1", title := "t", text := "bad stay", rating := 2, published_date := 100 }]
    googleReviewsAll := fun _ => []
    anonRand := fun _ => false
    llm := fun _ => DeepSeekOutcome.netError
    jsonParse := fun _ => none }

/-- The venue of the attribution witness. -/
def c6Hotel : DatabaseHotel :=
  { name := "Grand Hyatt Melbourne", google_place_id := some "p1" }

/-- The report the witness run inserts. -/
def c6Report : ProcessedReport :=
  mkReport "Grand Hyatt Melbourne" fallbackResult false "tripadvisor_r1" 100

theorem anonymity_attribution_witness :
    (c6Report.is_anonymous = true ↔ c6Report.system_reporter_name = none) ∧
    (c6Report.is_anonymous = false →
      c6Report.system_reporter_name = some SYSTEM_REPORTER_NAME) :=
  anonymity_attribution_exclusive c6Env 100 [] [c6Hotel] c6Report (by decide)

/-- A report as the pipeline writer itself produces it (non-anonymous,
model fallback content) for the Crown Towers venue. -/
def c8Report : ProcessedReport :=
  mkReport "Crown Towers Melbourne" fallbackResult false "tripadvisor_x1" 0

/-- One known venue with a place id, the same venue the report above is
about. -/
def c8Hotels : List HotelRow :=
  [{ id := "h1", name := "Crown Towers Melbourne", google_place_id := some "p1" }]

/-- C8: with an issue table holding exactly one record, written by this
pipeline's own writer for Crown Towers Melbourne (so its `hotel_id` column is
null because the insert never sets it), the unprocessed-cohort selection
still returns that venue: a venue that already appears in the issue table is
selected because the subtraction keys on `hotel_id`, which pipeline-written
rows never carry. -/
theorem unprocessed_cohort_misses_pipeline_rows :
    fetchUnprocessedHotels (fun _ => 0) 20 [insertedReportRow c8Report] c8Hotels =
      c8Hotels ∧
    (insertedReportRow c8Report).hotel_id = none ∧
    (insertedReportRow c8Report).hotel_name = "Crown Towers Melbourne" ∧
    c8Hotels.map (fun h => h.name) = ["Crown Towers Melbourne"] := by
  refine ⟨by decide, rfl, rfl, rfl⟩

/-- A fully present configuration. -/
def c9Config : Config :=
  { googleMapsApiKey := "g"
    tripadvisorApiKey := "t"
    deepseekApiKey := "d"
    supabaseUrl := "u"
    supabaseServiceKey := "s" }

/-- A prompt file whose System Prompt section parses. -/
def c9PromptFile : String := "## System Prompt\n```You are a hotel safety analyst.```"

/-- A world in which every provider fails soft. -/
def quietEnv : Env :=
  { taSearch := fun _ => none
    taReviews := fun _ => []
    googleReviewsAll := fun _ => []
    anonRand := fun _ => false
    llm := fun _ => DeepSeekOutcome.netError
    jsonParse := fun _ => none }

/-- Valid configuration and prompt but an empty cohort (for example, the
venue query failed soft and returned nothing). -/
def c9EmptyCohort : IngestEnv :=
  { config := c9Config
    promptFile := some c9PromptFile
    hotels := []
    env := quietEnv }

/-- C9 counterexample: with every required configuration value present and a
parsable prompt file, the run still aborts with a non-zero exit when the
selected cohort is empty — an abnormal termination that is not a fatal
configuration error, against the claim that those are the only fatal
preconditions. -/
theorem abort_on_empty_cohort_cx :
    exitCode (runIngestion c9EmptyCohort 0 []) = 1 ∧
    missingConfigKeys c9EmptyCohort.config = [] ∧
    loadSystemPrompt c9EmptyCohort.promptFile ≠ none := by
  refine ⟨by decide, by decide, by decide⟩

/-- C9 (amended): the pipeline exits zero exactly when the required
configuration is complete, the prompt file is present and parsable, and the
selected cohort is nonempty; so abnormal termination happens only for those
three pre-loop conditions — the empty cohort included — and never for
per-item failures inside the venue loop, which are all modelled as soft
results. -/
theorem abort_conditions (ie : IngestEnv) (now : Int) (store : List String) :
    exitCode (runIngestion ie now store) = 0 ↔
      (missingConfigKeys ie.config = [] ∧
       loadSystemPrompt ie.promptFile ≠ none ∧
       ie.hotels ≠ []) := by
  unfold runIngestion exitCode
  by_cases h1 : 0 < (missingConfigKeys ie.config).length
  · simp only [h1, if_true]
    constructor
    · intro h; cases h
    · rintro ⟨hm, -, -⟩
      rw [hm] at h1
      simp at h1
  · have hempty : missingConfigKeys ie.config = [] := by
      cases hm : missingConfigKeys ie.config with
      | nil => rfl
      | cons a t => rw [hm] at h1; simp at h1
    simp only [h1, if_false]
    cases hp : loadSystemPrompt ie.promptFile with
    | none =>
      simp only []
      constructor
      · intro h; cases h
      · rintro ⟨-, hne, -⟩
        exact absurd rfl hne
    | some p =>
      by_cases hh : ie.hotels.length = 0
      · simp only [hh, if_true]
        constructor
        · intro h; cases h
        · rintro ⟨-, -, hne⟩
          exact absurd (List.length_eq_zero.mp hh) hne
      · simp only [hh, if_false]
        constructor
        · intro _
          refine ⟨hempty, by simp [hp], ?_⟩
          intro hnil
          exact hh (by rw [hnil]; rfl)
        · intro _; trivial

/-- One venue in the cohort (without a place id, so the loop skips it). -/
def c9GoodCohort : IngestEnv :=
  { config := c9Config
    promptFile := some c9PromptFile
    hotels := [{ name := "H", google_place_id := none }]
    env := quietEnv }

theorem abort_conditions_witness :
    exitCode (runIngestion c9GoodCohort 0 []) = 0 :=
  (abort_conditions c9GoodCohort 0 []).mpr ⟨by decide, by decide, by decide⟩

end StayLive
